import Mathlib

/-!
Verification of the weaver ECS core against its natural-language
specification.  The Rust sources are shallowly embedded: the `Registry`
of `weaver-ecs/src/id.rs`, the query construction and lookup of
`weaver-ecs/src/query.rs`, the component map of `src/ecs/world.rs`, and,
where the deciding code is absent from the source tree (entity
generations, the borrow-intent tracker's internals, query filters),
definitions modelled from the specification, each marked as such.
-/

namespace Weaver

/-- A Rust `DynamicId` (`u32`); modelled as `Nat` with explicit wrap where
the source can overflow. -/
abbrev DynamicId := Nat

def u32Size : Nat := 2 ^ 32

/-- A compiled Rust type as the `Registry` sees it: its `TypeId` (distinct
types have distinct `tid`) and its `std::any::type_name` string. -/
structure StaticType where
  tid : Nat
  tname : String
deriving DecidableEq

/-- The `Registry` of `weaver-ecs/src/id.rs`: a `next_id` counter and two
maps, `TypeId -> DynamicId` and `String -> DynamicId`, here backed by
functions (matching `HashMap` lookup/insert/extend semantics). -/
structure Registry where
  next_id : Nat
  static_ids : Nat → Option DynamicId
  named_ids : String → Option DynamicId

/-- `Registry::create`: `next_id.fetch_add(1)` — returns the old value and
wraps at `u32::MAX` like the source's `AtomicU32`. -/
def Registry.create (r : Registry) : DynamicId × Registry :=
  (r.next_id, { r with next_id := (r.next_id + 1) % u32Size })

/-- Splitting a character list on each occurrence of `::`, scanning left
to right — the behaviour of the source's `type_name.split("::")`. -/
def splitOnColons : List Char → List Char → List (List Char)
  | ':' :: ':' :: rest, acc => acc.reverse :: splitOnColons rest []
  | c :: rest, acc => splitOnColons rest (c :: acc)
  | [], acc => [acc.reverse]

/-- `Registry::static_name`: the last `::`-separated segment of the type
name, falling back to the full name when that segment is empty. -/
def Registry.static_name (t : StaticType) : String :=
  let name := (splitOnColons t.tname.data []).getLastD []
  if name = [] then t.tname else String.mk name

/-- `Registry::get_static::<T>`: return the cached id for `T`'s `TypeId`,
else mint one, record it under the `TypeId`, and also record it in
`named_ids` under `static_name::<T>()` (overwriting any prior binding of
that name, as `HashMap::insert` does). -/
def Registry.get_static (r : Registry) (t : StaticType) : DynamicId × Registry :=
  match r.static_ids t.tid with
  | some id => (id, r)
  | none =>
    let (id, r1) := r.create
    let r2 := { r1 with
      static_ids := fun k => if k = t.tid then some id else r1.static_ids k }
    let name := Registry.static_name t
    (id, { r2 with
      named_ids := fun s => if s = name then some id else r2.named_ids s })

/-- `Registry::get_named`: return the cached id for the name, else mint
one and record it. -/
def Registry.get_named (r : Registry) (s : String) : DynamicId × Registry :=
  match r.named_ids s with
  | some id => (id, r)
  | none =>
    let (id, r1) := r.create
    (id, { r1 with
      named_ids := fun k => if k = s then some id else r1.named_ids k })

/-- `Registry::split`: a clone — same `next_id`, same maps. -/
def Registry.split (r : Registry) : Registry :=
  { next_id := r.next_id, static_ids := r.static_ids, named_ids := r.named_ids }

/-- `Registry::merge(other)`: store `other`'s `next_id` unconditionally and
`extend` both maps with `other`'s entries (entries of `other` overwrite
the receiver's on shared keys, as `HashMap::extend` does). -/
def Registry.merge (r other : Registry) : Registry :=
  { next_id := other.next_id
    static_ids := fun k =>
      match other.static_ids k with
      | some v => some v
      | none => r.static_ids k
    named_ids := fun s =>
      match other.named_ids s with
      | some v => some v
      | none => r.named_ids s }

/-- The builtin types `Registry::new` registers, with their
`std::any::type_name` strings; `tid`s 0–16 stand for their `TypeId`s. -/
def builtinTypes : List StaticType :=
  [⟨0, "()"⟩, ⟨1, "bool"⟩, ⟨2, "u8"⟩, ⟨3, "u16"⟩, ⟨4, "u32"⟩, ⟨5, "u64"⟩,
   ⟨6, "u128"⟩, ⟨7, "usize"⟩, ⟨8, "i8"⟩, ⟨9, "i16"⟩, ⟨10, "i32"⟩,
   ⟨11, "i64"⟩, ⟨12, "i128"⟩, ⟨13, "isize"⟩, ⟨14, "f32"⟩, ⟨15, "f64"⟩,
   ⟨16, "alloc::string::String"⟩]

/-- `Registry::new`: `next_id` starts at 1, then the builtin types are
registered via `get_static`. -/
def Registry.new : Registry :=
  builtinTypes.foldl (fun r t => (r.get_static t).2)
    { next_id := 1, static_ids := fun _ => none, named_ids := fun _ => none }

/-- A caller-visible operation on one `Registry` (the id-allocating calls
of `id.rs`; `split`/`merge` are treated separately since they involve a
second registry). -/
inductive RegOp where
  | opStatic (t : StaticType)
  | opNamed (s : String)
  | opCreate
deriving DecidableEq

def Registry.runOp (r : Registry) : RegOp → DynamicId × Registry
  | .opStatic t => r.get_static t
  | .opNamed s => r.get_named s
  | .opCreate => r.create

def Registry.run (r : Registry) (ops : List RegOp) : Registry :=
  ops.foldl (fun acc op => (acc.runOp op).2) r

/-- The id an operation would mint on registry `r`, if it mints one
(`get_static`/`get_named` mint only on a cache miss). -/
def Registry.mints? (r : Registry) : RegOp → Option DynamicId
  | .opStatic t =>
    match r.static_ids t.tid with
    | some _ => none
    | none => some r.next_id
  | .opNamed s =>
    match r.named_ids s with
    | some _ => none
    | none => some r.next_id
  | .opCreate => some r.next_id

/-- The ids minted along a run, in order. -/
def Registry.runTrace (r : Registry) : List RegOp → List DynamicId
  | [] => []
  | op :: ops =>
    match r.mints? op with
    | some id => id :: (r.runOp op).2.runTrace ops
    | none => (r.runOp op).2.runTrace ops

/-- `id` is bound to some type or name in `r`. -/
def Registry.bound (r : Registry) (id : DynamicId) : Prop :=
  (∃ k, r.static_ids k = some id) ∨ (∃ s, r.named_ids s = some id)

/-- The allocation invariant `Registry::new` establishes: every bound id
was minted below the counter. -/
def Registry.wf (r : Registry) : Prop :=
  ∀ id, r.bound id → id < r.next_id

/-- `op` does not first-register a static type whose unqualified name is
`s` (such a registration overwrites `named_ids[s]`). -/
def RegOp.nonClobbering : RegOp → String → Prop
  | .opStatic t, s => Registry.static_name t ≠ s
  | .opNamed _, _ => True
  | .opCreate, _ => True

/-- An entity handle of `weaver-ecs` (an opaque id in this revision). -/
abbrev Entity := Nat

/-- A stored component value behind `RwLock<dyn Component>`: the `TypeId`
tag that `as_any().is::<T>()` inspects, and the value itself. -/
structure CompData where
  tid : Nat
  payload : Nat
deriving DecidableEq

/-- First-match association-list lookup (the observable behaviour of the
source's map `get`). -/
def alookup {α β : Type} [DecidableEq α] : List (α × β) → α → Option β
  | [], _ => none
  | (k, v) :: rest, key => if key = k then some v else alookup rest key

/-- The `World` state that `Read::new`/`Write::new` iterate: the
`entities_components` map from entity to its per-component-id storage. -/
structure QWorld where
  entities_components : List (Entity × List (DynamicId × CompData))
deriving DecidableEq

/-- Outstanding borrow counts for one `(entity, component)` slot. -/
structure SlotState where
  readers : Nat
  writers : Nat
deriving DecidableEq

/-- The borrow-intent tracker: per `(entity, component)` slot state;
`none` means the slot is not tracked (the component does not exist). -/
def BorrowIntent := Entity → DynamicId → Option SlotState

/-- Modelled from the spec: `BorrowIntent::try_read` — absent from src/;
per the spec at most one writer or any number of readers may hold a slot,
a conflicting acquisition is an error, a successful one records the
reader. Returns `none` when the slot is untracked, mirroring the
`Option<Result>` shape consumed in `query.rs`. -/
def tryRead (b : BorrowIntent) (e : Entity) (c : DynamicId) :
    Option (Except String BorrowIntent) :=
  match b e c with
  | none => none
  | some s =>
    if 0 < s.writers then some (Except.error "component already borrowed")
    else some (Except.ok (fun e2 c2 =>
      if e2 = e ∧ c2 = c then some ⟨s.readers + 1, s.writers⟩ else b e2 c2))

/-- Modelled from the spec: `BorrowIntent::try_write` — a writer conflicts
with any outstanding reader or writer. -/
def tryWrite (b : BorrowIntent) (e : Entity) (c : DynamicId) :
    Option (Except String BorrowIntent) :=
  match b e c with
  | none => none
  | some s =>
    if 0 < s.writers ∨ 0 < s.readers then
      some (Except.error "component already borrowed")
    else some (Except.ok (fun e2 c2 =>
      if e2 = e ∧ c2 = c then some ⟨s.readers, s.writers + 1⟩ else b e2 c2))

/-- The shared fold of `Read::new` and `Write::new` in `query.rs`: walk
`entities_components`; for an entity holding the component, consult the
tracker — untracked slots are skipped, a conflict aborts the whole
construction (the source panics), success collects the guard and the
updated tracker. -/
def collectEntries
    (tryAcq : BorrowIntent → Entity → DynamicId → Option (Except String BorrowIntent))
    (cid : DynamicId) :
    BorrowIntent → List (Entity × List (DynamicId × CompData)) →
      Except String (List (Entity × CompData) × BorrowIntent)
  | b, [] => Except.ok ([], b)
  | b, (e, comps) :: rest =>
    match alookup comps cid with
    | none => collectEntries tryAcq cid b rest
    | some d =>
      match tryAcq b e cid with
      | none => collectEntries tryAcq cid b rest
      | some (Except.error msg) => Except.error msg
      | some (Except.ok b2) =>
        match collectEntries tryAcq cid b2 rest with
        | Except.error msg => Except.error msg
        | Except.ok (entries, b3) => Except.ok ((e, d) :: entries, b3)

/-- `Read::<T>::new` for component id `cid` (`query.rs`). -/
def readNew (cid : DynamicId) (w : QWorld) (b : BorrowIntent) :
    Except String (List (Entity × CompData) × BorrowIntent) :=
  collectEntries tryRead cid b w.entities_components

/-- `Write::<T>::new` for component id `cid` (`query.rs`). -/
def writeNew (cid : DynamicId) (w : QWorld) (b : BorrowIntent) :
    Except String (List (Entity × CompData) × BorrowIntent) :=
  collectEntries tryWrite cid b w.entities_components

/-- `Read::get`/`Write::get` (`query.rs`): look the entity up among the
collected entries, keep it only if the stored value's tag is `T`, and
return the downcast payload. -/
def queryGet (cid : DynamicId) (entries : List (Entity × CompData)) (e : Entity) :
    Option Nat :=
  match alookup entries e with
  | none => none
  | some d => if d.tid = cid then some d.payload else none

/-- The component a live entity holds under `cid`, straight from the
world's storage. -/
def entityHas (w : QWorld) (e : Entity) (cid : DynamicId) : Option CompData :=
  match alookup w.entities_components e with
  | none => none
  | some comps => alookup comps cid

def hasComponent (comps : List (DynamicId × CompData)) (c : DynamicId) : Bool :=
  (alookup comps c).isSome

/-- Modelled from the spec: the query engine's archetype/entity selection
(`world.rs`/`storage.rs` are absent from src/) — a static query matches
exactly the entities whose component set is a superset of the requested
read-write set, in storage order. -/
def queryEntities (req : List DynamicId) (w : QWorld) : List Entity :=
  (w.entities_components.filter
    (fun ec => req.all (fun c => hasComponent ec.2 c))).map Prod.fst

/-- Modelled from the spec: `query_filtered` — `With`/`Without` filters
add contains/excludes conditions to the matching predicate without
joining the accessed set. -/
def queryFilteredEntities (req withReq withoutReq : List DynamicId) (w : QWorld) :
    List Entity :=
  (w.entities_components.filter (fun ec =>
    req.all (fun c => hasComponent ec.2 c) &&
    withReq.all (fun c => hasComponent ec.2 c) &&
    withoutReq.all (fun c => !hasComponent ec.2 c))).map Prod.fst

def idA : DynamicId := 18
def idB : DynamicId := 19
def idC : DynamicId := 20

def mkEC (e : Entity) (cs : List DynamicId) : Entity × List (DynamicId × CompData) :=
  (e, cs.map (fun c => (c, ⟨c, 0⟩)))

/-- The acceptance-test world of `weaver-ecs/src/lib.rs`: four entities
with component sets {A,B,C}, {A,B}, {A,C}, {A,B,C}. -/
def testWorld : QWorld :=
  ⟨[mkEC 0 [idA, idB, idC], mkEC 1 [idA, idB],
    mkEC 2 [idA, idC], mkEC 3 [idA, idB, idC]]⟩

/-- Modelled from the spec: an entity handle
`{ index: u32, generation: u32 }` — the generational `Entity` type is
absent from src/. -/
structure GenEntity where
  index : Nat
  generation : Nat
deriving DecidableEq

/-- Modelled from the spec: the entity-index side of `World` — a fresh
index counter, the per-index generation, the free list of despawned
indices, and which indices currently hold a live entity. -/
structure GenWorld where
  next_index : Nat
  generations : Nat → Nat
  freeList : List Nat
  liveIdx : Nat → Bool

/-- A handle is valid while its index is live and its generation matches
the index's current generation. -/
def GenWorld.isAlive (w : GenWorld) (e : GenEntity) : Bool :=
  w.liveIdx e.index && (w.generations e.index == e.generation)

/-- Modelled from the spec: `World::spawn` allocates an entity id — a
freed index is reused (with the index's current generation), otherwise a
fresh index is taken. -/
def GenWorld.spawn (w : GenWorld) : GenEntity × GenWorld :=
  match w.freeList with
  | i :: rest =>
    (⟨i, w.generations i⟩,
     { w with
        freeList := rest
        liveIdx := fun j => if j = i then true else w.liveIdx j })
  | [] =>
    (⟨w.next_index, w.generations w.next_index⟩,
     { w with
        next_index := w.next_index + 1
        liveIdx := fun j => if j = w.next_index then true else w.liveIdx j })

/-- Modelled from the spec: `World::despawn` removes the entity's row,
frees the index, and increments its generation; a stale or dead handle is
rejected (no effect). -/
def GenWorld.despawn (w : GenWorld) (e : GenEntity) : GenWorld :=
  if w.isAlive e then
    { w with
        generations := fun j =>
          if j = e.index then w.generations j + 1 else w.generations j
        freeList := e.index :: w.freeList
        liveIdx := fun j => if j = e.index then false else w.liveIdx j }
  else w

/-- Modelled from the spec: any `get`-style access through a handle first
validates it; a despawned or stale handle yields a distinct failure
(`none`), never stale data. -/
def GenWorld.access (w : GenWorld) (e : GenEntity) : Option Unit :=
  if w.isAlive e then some () else none

/-- A structural operation on the entity index. -/
inductive WorldOp where
  | wopSpawn
  | wopDespawn (e : GenEntity)

def GenWorld.runOps (w : GenWorld) : List WorldOp → GenWorld
  | [] => w
  | .wopSpawn :: ops => (w.spawn).2.runOps ops
  | .wopDespawn e :: ops => (w.despawn e).runOps ops

/-- An empty world with no entities. -/
def GenWorld.empty : GenWorld :=
  { next_index := 0, generations := fun _ => 0, freeList := [], liveIdx := fun _ => false }

/-- The `Components` store of `src/ecs/world.rs`:
`FxHashMap<Entity, Vec<RefCell<Box<dyn Component>>>>`. -/
structure Components where
  data : List (Entity × List CompData)
deriving DecidableEq

/-- `Components::remove::<T>` (`src/ecs/world.rs`): `retain` on the
entity's vector, keeping exactly the components that are not of type `T`;
no other entry of the map is touched. -/
def Components.remove (m : Components) (tid : Nat) (e : Entity) : Components :=
  ⟨m.data.map (fun ec =>
    if ec.1 = e then (ec.1, ec.2.filter (fun c => !(c.tid == tid))) else ec)⟩

/-- The `World` of `src/ecs/world.rs`, restricted to its component
store. -/
structure WorldS where
  components : Components
deriving DecidableEq

/-- `World::remove_component::<T>` (`src/ecs/world.rs`): delegates to
`Components::remove`. -/
def WorldS.remove_component (w : WorldS) (tid : Nat) (e : Entity) : WorldS :=
  ⟨w.components.remove tid e⟩

/-- The entry list of a successful `Read::new`, `none` when construction
panics. -/
def readNewEntries (cid : DynamicId) (w : QWorld) (b : BorrowIntent) :
    Option (List (Entity × CompData)) :=
  match readNew cid w b with
  | Except.ok p => some p.1
  | Except.error _ => none

/-- The entry list of a successful `Write::new`, `none` when construction
panics. -/
def writeNewEntries (cid : DynamicId) (w : QWorld) (b : BorrowIntent) :
    Option (List (Entity × CompData)) :=
  match writeNew cid w b with
  | Except.ok p => some p.1
  | Except.error _ => none

/-- A one-entity world holding component 5, for concrete instantiation. -/
def conflictWorld : QWorld := ⟨[(0, [(5, ⟨5, 7⟩)])]⟩

/-- A tracker with an outstanding writer on entity 0, component 5. -/
def conflictTracker : BorrowIntent :=
  fun e c => if e = 0 ∧ c = 5 then some ⟨0, 1⟩ else none

/-- A tracker with every slot free. -/
def freeTracker : BorrowIntent := fun _ _ => some ⟨0, 0⟩

lemma run_cons (r : Registry) (op : RegOp) (ops : List RegOp) :
    r.run (op :: ops) = ((r.runOp op).2).run ops := rfl

lemma get_static_found {r : Registry} {t : StaticType} {id : DynamicId}
    (h : r.static_ids t.tid = some id) : r.get_static t = (id, r) := by
  simp [Registry.get_static, h]

lemma get_named_found {r : Registry} {s : String} {id : DynamicId}
    (h : r.named_ids s = some id) : r.get_named s = (id, r) := by
  simp [Registry.get_named, h]

lemma static_ids_get_static_self (r : Registry) (t : StaticType) :
    ((r.get_static t).2).static_ids t.tid = some (r.get_static t).1 := by
  cases h : r.static_ids t.tid with
  | some id => simp [Registry.get_static, h]
  | none => simp [Registry.get_static, h, Registry.create]

lemma named_ids_get_static_mint {r : Registry} {t : StaticType}
    (h : r.static_ids t.tid = none) :
    ((r.get_static t).2).named_ids (Registry.static_name t) = some (r.get_static t).1 := by
  simp [Registry.get_static, h, Registry.create]

lemma named_ids_get_named_self (r : Registry) (s : String) :
    ((r.get_named s).2).named_ids s = some (r.get_named s).1 := by
  cases h : r.named_ids s with
  | some id => simp [Registry.get_named, h]
  | none => simp [Registry.get_named, h, Registry.create]

lemma static_ids_runOp_persist {r : Registry} {k : Nat} {id : DynamicId} (op : RegOp)
    (h : r.static_ids k = some id) : ((r.runOp op).2).static_ids k = some id := by
  cases op with
  | opStatic t =>
    cases h2 : r.static_ids t.tid with
    | some i => simp [Registry.runOp, Registry.get_static, h2, h]
    | none =>
      by_cases hk : k = t.tid
      · subst hk; rw [h] at h2; cases h2
      · simp [Registry.runOp, Registry.get_static, h2, Registry.create, hk, h]
  | opNamed s =>
    cases h2 : r.named_ids s with
    | some i => simp [Registry.runOp, Registry.get_named, h2, h]
    | none => simp [Registry.runOp, Registry.get_named, h2, Registry.create, h]
  | opCreate => simpa [Registry.runOp, Registry.create] using h

lemma static_ids_run_persist {r : Registry} {k : Nat} {id : DynamicId}
    (ops : List RegOp) (h : r.static_ids k = some id) :
    (r.run ops).static_ids k = some id := by
  induction ops generalizing r with
  | nil => simpa [Registry.run] using h
  | cons op ops ih => rw [run_cons]; exact ih (static_ids_runOp_persist op h)

lemma named_ids_runOp_persist {r : Registry} {s : String} {id : DynamicId} {op : RegOp}
    (h : r.named_ids s = some id) (hnc : op.nonClobbering s) :
    ((r.runOp op).2).named_ids s = some id := by
  cases op with
  | opStatic t =>
    have hnc2 : Registry.static_name t ≠ s := hnc
    cases h2 : r.static_ids t.tid with
    | some i => simp [Registry.runOp, Registry.get_static, h2, h]
    | none =>
      simp [Registry.runOp, Registry.get_static, h2, Registry.create,
        Ne.symm hnc2, h]
  | opNamed s2 =>
    cases h2 : r.named_ids s2 with
    | some i => simp [Registry.runOp, Registry.get_named, h2, h]
    | none =>
      by_cases hs : s = s2
      · subst hs; rw [h] at h2; cases h2
      · simp [Registry.runOp, Registry.get_named, h2, Registry.create, hs, h]
  | opCreate => simpa [Registry.runOp, Registry.create] using h

lemma named_ids_run_persist {r : Registry} {s : String} {id : DynamicId}
    {ops : List RegOp} (h : r.named_ids s = some id)
    (hops : ∀ op ∈ ops, op.nonClobbering s) :
    (r.run ops).named_ids s = some id := by
  induction ops generalizing r with
  | nil => simpa [Registry.run] using h
  | cons op ops ih =>
    rw [run_cons]
    exact ih (named_ids_runOp_persist h (hops op (List.mem_cons_self op ops)))
      (fun o ho => hops o (List.mem_cons_of_mem op ho))

/-- C3 (amended): within one Registry, repeated `get_static::<T>()` calls
all return the id the first call returned, across any interleaved
`get_static`/`get_named`/`create` operations; repeated `get_named(name)`
calls return the id the first call returned provided no interleaved
`get_static` first-registers a type whose unqualified name equals `name`
(such a registration overwrites the name's binding). -/
theorem registry_repeated_calls_stable (r : Registry) (t : StaticType) (s : String)
    (ops ops2 : List RegOp) (hops2 : ∀ op ∈ ops2, op.nonClobbering s) :
    ((((r.get_static t).2).run ops).get_static t).1 = (r.get_static t).1 ∧
    ((((r.get_named s).2).run ops2).get_named s).1 = (r.get_named s).1 := by
  constructor
  · have h2 := static_ids_run_persist ops (static_ids_get_static_self r t)
    rw [get_static_found h2]
  · have h2 := named_ids_run_persist (named_ids_get_named_self r s) hops2
    rw [get_named_found h2]

/-- C3 (counterexample): two `get_named("Thing")` calls on the same
Registry return different ids when a `get_static` of a type whose
unqualified name is `Thing` runs in between — the second call returns the
id minted for `foo::Thing`, not the id the first call returned. -/
theorem registry_get_named_rebound :
    (((Registry.new.get_named "Thing").2.get_static
        ⟨100, "foo::Thing"⟩).2.get_named "Thing").1
      ≠ (Registry.new.get_named "Thing").1 := by decide

theorem registry_repeated_calls_stable_witness :
    (∀ op ∈ [RegOp.opStatic ⟨101, "x::B"⟩], op.nonClobbering "q") ∧
    ((((Registry.new.get_static ⟨100, "foo::A"⟩).2).run
        [RegOp.opNamed "w"]).get_static ⟨100, "foo::A"⟩).1
      = (Registry.new.get_static ⟨100, "foo::A"⟩).1 ∧
    ((((Registry.new.get_named "q").2).run
        [RegOp.opStatic ⟨101, "x::B"⟩]).get_named "q").1
      = (Registry.new.get_named "q").1 :=
  have hops : ∀ op ∈ [RegOp.opStatic ⟨101, "x::B"⟩], op.nonClobbering "q" := by
    intro op hop
    rw [List.mem_singleton] at hop
    subst hop
    show Registry.static_name _ ≠ _
    decide
  ⟨hops, registry_repeated_calls_stable Registry.new ⟨100, "foo::A"⟩ "q"
    [RegOp.opNamed "w"] [RegOp.opStatic ⟨101, "x::B"⟩] hops⟩

/-- C10 (amended): once `get_static::<T>()` first registers `T`, a later
`get_named` with `T`'s unqualified name returns the very id `get_static`
returned and mints nothing (the registry is unchanged) — provided no
other type with the same unqualified name is first-registered in
between; such a registration rebinds the short name to its own id. -/
theorem get_named_reaches_static_id (r : Registry) (t : StaticType) (ops : List RegOp)
    (hfresh : r.static_ids t.tid = none)
    (hops : ∀ op ∈ ops, op.nonClobbering (Registry.static_name t)) :
    ((r.get_static t).2.run ops).get_named (Registry.static_name t)
      = ((r.get_static t).1, (r.get_static t).2.run ops) := by
  have h2 := named_ids_run_persist (named_ids_get_static_mint hfresh) hops
  rw [get_named_found h2]

/-- C10 (counterexample): `foo::Thing` and `bar::Thing` share the
unqualified name `Thing`; after both are registered via `get_static`,
`get_named("Thing")` returns `bar::Thing`'s id, not the id
`get_static::<foo::Thing>()` returned. -/
theorem get_named_shadowed_by_collision :
    Registry.static_name ⟨100, "foo::Thing"⟩ = "Thing" ∧
    (((Registry.new.get_static ⟨100, "foo::Thing"⟩).2.get_static
        ⟨101, "bar::Thing"⟩).2.get_named "Thing").1
      ≠ (Registry.new.get_static ⟨100, "foo::Thing"⟩).1 := by decide

theorem get_named_reaches_static_id_witness :
    Registry.new.static_ids 100 = none ∧
    ((Registry.new.get_static ⟨100, "foo::A"⟩).2.run
        [RegOp.opNamed "other"]).get_named (Registry.static_name ⟨100, "foo::A"⟩)
      = ((Registry.new.get_static ⟨100, "foo::A"⟩).1,
         (Registry.new.get_static ⟨100, "foo::A"⟩).2.run [RegOp.opNamed "other"]) :=
  ⟨by decide,
   get_named_reaches_static_id Registry.new ⟨100, "foo::A"⟩ [RegOp.opNamed "other"]
    (by decide)
    (by intro op hop; rw [List.mem_singleton] at hop; subst hop; trivial)⟩

/-- C9 (confirmed): immediately after `split`, every type and name bound
in the source registry is bound to the same id in the clone; and after
`merge(other)`, the receiver binds every type and name registered in
`other` — in particular every shared one — to exactly the id `other`
binds it to, so the two registries agree on ids for shared types. -/
theorem registry_split_merge_agree (r other : Registry) :
    (∀ k, (r.split).static_ids k = r.static_ids k) ∧
    (∀ s, (r.split).named_ids s = r.named_ids s) ∧
    (∀ k id, other.static_ids k = some id → (r.merge other).static_ids k = some id) ∧
    (∀ s id, other.named_ids s = some id → (r.merge other).named_ids s = some id) := by
  refine ⟨fun k => rfl, fun s => rfl, fun k id h => ?_, fun s id h => ?_⟩ <;>
    simp [Registry.merge, h]

theorem registry_split_merge_agree_witness :
    Registry.new.split.named_ids "bool" = some 2 ∧
    (Registry.new.merge Registry.new.split).named_ids "bool" = some 2 :=
  ⟨by decide,
   (registry_split_merge_agree Registry.new Registry.new.split).2.2.2 "bool" 2 (by decide)⟩

lemma runOp_of_no_mint {r : Registry} {op : RegOp} (h : r.mints? op = none) :
    (r.runOp op).2 = r := by
  cases op with
  | opStatic t =>
    cases h2 : r.static_ids t.tid with
    | some i => simp [Registry.runOp, Registry.get_static, h2]
    | none => simp [Registry.mints?, h2] at h
  | opNamed s =>
    cases h2 : r.named_ids s with
    | some i => simp [Registry.runOp, Registry.get_named, h2]
    | none => simp [Registry.mints?, h2] at h
  | opCreate => simp [Registry.mints?] at h

lemma mint_eq_next {r : Registry} {op : RegOp} {id : DynamicId}
    (h : r.mints? op = some id) : id = r.next_id := by
  cases op with
  | opStatic t =>
    cases h2 : r.static_ids t.tid with
    | some i => simp [Registry.mints?, h2] at h
    | none =>
      simp only [Registry.mints?, h2] at h
      exact (Option.some.inj h).symm
  | opNamed s =>
    cases h2 : r.named_ids s with
    | some i => simp [Registry.mints?, h2] at h
    | none =>
      simp only [Registry.mints?, h2] at h
      exact (Option.some.inj h).symm
  | opCreate =>
    simp only [Registry.mints?] at h
    exact (Option.some.inj h).symm

lemma runOp_next_of_mint {r : Registry} {op : RegOp} {id : DynamicId}
    (h : r.mints? op = some id) (hlt : r.next_id + 1 < u32Size) :
    (r.runOp op).2.next_id = r.next_id + 1 := by
  have hm : (r.next_id + 1) % u32Size = r.next_id + 1 := Nat.mod_eq_of_lt hlt
  cases op with
  | opStatic t =>
    cases h2 : r.static_ids t.tid with
    | some i => simp [Registry.mints?, h2] at h
    | none => simp [Registry.runOp, Registry.get_static, h2, Registry.create, hm]
  | opNamed s =>
    cases h2 : r.named_ids s with
    | some i => simp [Registry.mints?, h2] at h
    | none => simp [Registry.runOp, Registry.get_named, h2, Registry.create, hm]
  | opCreate => simp [Registry.runOp, Registry.create, hm]

lemma bound_runOp {r : Registry} {op : RegOp} {j : DynamicId}
    (h : ((r.runOp op).2).bound j) : r.bound j ∨ j = r.next_id := by
  cases op with
  | opStatic t =>
    cases h2 : r.static_ids t.tid with
    | some i =>
      simp only [Registry.runOp] at h
      rw [get_static_found h2] at h
      exact Or.inl h
    | none =>
      simp only [Registry.runOp, Registry.get_static, h2, Registry.create] at h
      rcases h with ⟨k, hk⟩ | ⟨s, hs⟩
      · dsimp only at hk
        by_cases hkt : k = t.tid
        · rw [if_pos hkt] at hk
          exact Or.inr (Option.some.inj hk).symm
        · rw [if_neg hkt] at hk
          exact Or.inl (Or.inl ⟨k, hk⟩)
      · dsimp only at hs
        by_cases hsn : s = Registry.static_name t
        · rw [if_pos hsn] at hs
          exact Or.inr (Option.some.inj hs).symm
        · rw [if_neg hsn] at hs
          exact Or.inl (Or.inr ⟨s, hs⟩)
  | opNamed s0 =>
    cases h2 : r.named_ids s0 with
    | some i =>
      simp only [Registry.runOp] at h
      rw [get_named_found h2] at h
      exact Or.inl h
    | none =>
      simp only [Registry.runOp, Registry.get_named, h2, Registry.create] at h
      rcases h with ⟨k, hk⟩ | ⟨s, hs⟩
      · exact Or.inl (Or.inl ⟨k, hk⟩)
      · dsimp only at hs
        by_cases hsn : s = s0
        · rw [if_pos hsn] at hs
          exact Or.inr (Option.some.inj hs).symm
        · rw [if_neg hsn] at hs
          exact Or.inl (Or.inr ⟨s, hs⟩)
  | opCreate =>
    simp only [Registry.runOp, Registry.create] at h
    exact Or.inl h

lemma wf_runOp {r : Registry} (op : RegOp) (hwf : r.wf) (hlt : r.next_id + 1 < u32Size) :
    ((r.runOp op).2).wf := by
  cases hm : r.mints? op with
  | none => rw [runOp_of_no_mint hm]; exact hwf
  | some id =>
    intro j hj
    rw [runOp_next_of_mint hm hlt]
    rcases bound_runOp hj with hb | hb
    · exact Nat.lt_trans (hwf j hb) (Nat.lt_succ_self _)
    · subst hb; exact Nat.lt_succ_self _

lemma runTrace_spec (ops : List RegOp) : ∀ (r : Registry), r.wf →
    r.next_id + ops.length < u32Size →
    (r.runTrace ops).Pairwise (· < ·) ∧
    (∀ id ∈ r.runTrace ops, r.next_id ≤ id) ∧
    (r.run ops).wf ∧ r.next_id ≤ (r.run ops).next_id := by
  induction ops with
  | nil =>
    intro r hwf _
    exact ⟨List.Pairwise.nil, by simp [Registry.runTrace], hwf, Nat.le_refl _⟩
  | cons op ops ih =>
    intro r hwf hsz
    rw [List.length_cons] at hsz
    have hlt : r.next_id + 1 < u32Size := by omega
    cases hm : r.mints? op with
    | none =>
      have heq : (r.runOp op).2 = r := runOp_of_no_mint hm
      have htr : r.runTrace (op :: ops) = r.runTrace ops := by
        simp only [Registry.runTrace, hm, heq]
      rw [htr, run_cons, heq]
      exact ih r hwf (by omega)
    | some id =>
      have hid : id = r.next_id := mint_eq_next hm
      have heqn : (r.runOp op).2.next_id = r.next_id + 1 := runOp_next_of_mint hm hlt
      have hwf2 : ((r.runOp op).2).wf := wf_runOp op hwf hlt
      obtain ⟨hpw, hge, hwf3, hnext⟩ := ih (r.runOp op).2 hwf2 (by omega)
      have htr : r.runTrace (op :: ops) = id :: (r.runOp op).2.runTrace ops := by
        simp only [Registry.runTrace, hm]
      rw [htr, run_cons]
      refine ⟨List.Pairwise.cons (fun b hb => ?_) hpw, ?_, hwf3, ?_⟩
      · show id < b
        have hb2 := hge b hb
        rw [heqn] at hb2
        exact hid ▸ Nat.lt_of_succ_le hb2
      · intro i hi
        rcases List.mem_cons.mp hi with h | h
        · rw [h, hid]
        · have hb2 := hge i h
          rw [heqn] at hb2
          exact Nat.le_trans (Nat.le_succ _) hb2
      · rw [heqn] at hnext
        exact Nat.le_trans (Nat.le_succ _) hnext

/-- C4 (amended): in any sequence of `get_static`/`get_named`/`create`
operations without `merge` (and minting fewer than `2^32` ids), each
freshly minted id is strictly greater than every id minted before it and
than every id already bound, so no id is reused for a second type or
name; `merge(other)`, however, overwrites the receiver's `next_id` and
its bindings on keys `other` also binds, which can both rebind an
existing type or name and make later mints collide with ids minted
before the merge — avoiding that is the caller's protocol obligation. -/
theorem registry_monotonic_without_merge (r : Registry) (ops : List RegOp)
    (hwf : r.wf) (hsz : r.next_id + ops.length < u32Size) :
    (r.runTrace ops).Pairwise (· < ·) ∧
    (∀ id ∈ r.runTrace ops, ∀ j, r.bound j → j < id) ∧
    (r.run ops).wf := by
  obtain ⟨hpw, hge, hwf2, _⟩ := runTrace_spec ops r hwf hsz
  exact ⟨hpw, fun id hid j hj => Nat.lt_of_lt_of_le (hwf j hj) (hge id hid), hwf2⟩

/-- C4 (counterexample): register `"x"` (minting id 18), then merge back
a pristine split taken earlier (whose counter is still 18); the next
mint returns 18 again, so the same id ends up bound to the two distinct
names `"x"` and `"z"` — and merging a split in which `"x"` was bound to
a different id rebinds `"x"` in the receiver from 18 to 19. -/
theorem registry_merge_reuses_ids :
    (Registry.new.get_named "x").1 = 18 ∧
    (((Registry.new.get_named "x").2.merge Registry.new.split).get_named "z").1 = 18 ∧
    ((((Registry.new.get_named "x").2.merge Registry.new.split).get_named "z").2.named_ids "x"
      = some 18) ∧
    ((((Registry.new.get_named "x").2.merge Registry.new.split).get_named "z").2.named_ids "z"
      = some 18) ∧
    (Registry.new.get_named "x").2.named_ids "x" = some 18 ∧
    (((Registry.new.get_named "x").2).merge
        (((Registry.new.split.get_named "y").2.get_named "x").2)).named_ids "x"
      = some 19 := by decide

lemma emptyRegistry_wf : (Registry.mk 1 (fun _ => none) (fun _ => none)).wf := by
  intro id hid
  rcases hid with ⟨k, hk⟩ | ⟨s, hs⟩
  · exact Option.noConfusion hk
  · exact Option.noConfusion hs

lemma new_eq_run :
    Registry.new
      = (Registry.mk 1 (fun _ => none) (fun _ => none)).run
          (builtinTypes.map RegOp.opStatic) := by
  rw [Registry.run, List.foldl_map]
  rfl

lemma new_wf : Registry.new.wf := by
  rw [new_eq_run]
  exact (runTrace_spec (builtinTypes.map RegOp.opStatic) _ emptyRegistry_wf
    (by decide)).2.2.1

theorem registry_monotonic_without_merge_witness :
    Registry.new.wf ∧
    Registry.new.next_id
        + ([RegOp.opNamed "x", RegOp.opCreate, RegOp.opStatic ⟨100, "m::T"⟩] : List RegOp).length
      < u32Size ∧
    ((Registry.new.runTrace
        [RegOp.opNamed "x", RegOp.opCreate, RegOp.opStatic ⟨100, "m::T"⟩]).Pairwise (· < ·) ∧
     (∀ id ∈ Registry.new.runTrace
        [RegOp.opNamed "x", RegOp.opCreate, RegOp.opStatic ⟨100, "m::T"⟩],
        ∀ j, Registry.new.bound j → j < id) ∧
     (Registry.new.run
        [RegOp.opNamed "x", RegOp.opCreate, RegOp.opStatic ⟨100, "m::T"⟩]).wf) :=
  ⟨new_wf, by decide,
   registry_monotonic_without_merge Registry.new
    [RegOp.opNamed "x", RegOp.opCreate, RegOp.opStatic ⟨100, "m::T"⟩] new_wf (by decide)⟩

lemma alookup_mem {α β : Type} [DecidableEq α] :
    ∀ {l : List (α × β)} {k : α} {v : β}, alookup l k = some v → (k, v) ∈ l := by
  intro l
  induction l with
  | nil => intro k v h; cases h
  | cons p rest ih =>
    intro k v h
    obtain ⟨k0, v0⟩ := p
    simp only [alookup] at h
    by_cases hk : k = k0
    · rw [if_pos hk] at h
      rw [hk, Option.some.inj h]
      exact List.mem_cons_self _ _
    · rw [if_neg hk] at h
      exact List.mem_cons_of_mem _ (ih h)

lemma collect_error_of_conflict
    (tryAcq : BorrowIntent → Entity → DynamicId → Option (Except String BorrowIntent))
    (P : SlotState → Prop) (cid : DynamicId)
    (hdetect : ∀ (b : BorrowIntent) (e : Entity) (s : SlotState), b e cid = some s → P s →
      ∃ msg, tryAcq b e cid = some (Except.error msg))
    (hframe : ∀ (b : BorrowIntent) (e : Entity) (b2 : BorrowIntent),
      tryAcq b e cid = some (Except.ok b2) → ∀ e2, e2 ≠ e → b2 e2 cid = b e2 cid) :
    ∀ (list : List (Entity × List (DynamicId × CompData))) (b : BorrowIntent)
      (e : Entity) (comps : List (DynamicId × CompData)) (d : CompData) (s : SlotState),
      (e, comps) ∈ list → alookup comps cid = some d → b e cid = some s → P s →
      ∃ msg, collectEntries tryAcq cid b list = Except.error msg := by
  intro list
  induction list with
  | nil => intro b e comps d s hmem; cases hmem
  | cons p rest ih =>
    intro b e comps d s hmem hcomp hslot hP
    obtain ⟨e0, comps0⟩ := p
    rcases List.mem_cons.mp hmem with heq | hmem2
    · cases heq
      obtain ⟨msg, hmsg⟩ := hdetect b e s hslot hP
      refine ⟨msg, ?_⟩
      simp only [collectEntries, hcomp, hmsg]
    · simp only [collectEntries]
      cases halook : alookup comps0 cid with
      | none => exact ih b e comps d s hmem2 hcomp hslot hP
      | some d0 =>
        cases hacq : tryAcq b e0 cid with
        | none => exact ih b e comps d s hmem2 hcomp hslot hP
        | some res =>
          cases res with
          | error msg => exact ⟨msg, rfl⟩
          | ok b2 =>
            by_cases hee : e = e0
            · subst hee
              obtain ⟨msg, hmsg⟩ := hdetect b e s hslot hP
              rw [hacq] at hmsg
              cases Option.some.inj hmsg
            · have hslot2 : b2 e cid = some s :=
                (hframe b e0 b2 hacq e hee).trans hslot
              obtain ⟨msg, hmsg⟩ := ih b2 e comps d s hmem2 hcomp hslot2 hP
              refine ⟨msg, ?_⟩
              dsimp only
              rw [hmsg]

lemma tryRead_detect (b : BorrowIntent) (e : Entity) (c : DynamicId) (s : SlotState)
    (hb : b e c = some s) (hw : 0 < s.writers) :
    ∃ msg, tryRead b e c = some (Except.error msg) := by
  refine ⟨"component already borrowed", ?_⟩
  simp only [tryRead, hb, if_pos hw]

lemma tryRead_frame (b : BorrowIntent) (e : Entity) (c : DynamicId) (b2 : BorrowIntent)
    (h : tryRead b e c = some (Except.ok b2)) (e2 : Entity) (hne : e2 ≠ e) (c2 : DynamicId) :
    b2 e2 c2 = b e2 c2 := by
  cases hb : b e c with
  | none => simp [tryRead, hb] at h
  | some s =>
    simp only [tryRead, hb] at h
    by_cases hw : 0 < s.writers
    · rw [if_pos hw] at h
      cases Option.some.inj h
    · rw [if_neg hw] at h
      rw [← Except.ok.inj (Option.some.inj h)]
      dsimp only
      rw [if_neg (fun hand => hne hand.1)]

lemma tryWrite_detect (b : BorrowIntent) (e : Entity) (c : DynamicId) (s : SlotState)
    (hb : b e c = some s) (hw : 0 < s.writers ∨ 0 < s.readers) :
    ∃ msg, tryWrite b e c = some (Except.error msg) := by
  refine ⟨"component already borrowed", ?_⟩
  simp only [tryWrite, hb, if_pos hw]

lemma tryWrite_frame (b : BorrowIntent) (e : Entity) (c : DynamicId) (b2 : BorrowIntent)
    (h : tryWrite b e c = some (Except.ok b2)) (e2 : Entity) (hne : e2 ≠ e) (c2 : DynamicId) :
    b2 e2 c2 = b e2 c2 := by
  cases hb : b e c with
  | none => simp [tryWrite, hb] at h
  | some s =>
    simp only [tryWrite, hb] at h
    by_cases hw : 0 < s.writers ∨ 0 < s.readers
    · rw [if_pos hw] at h
      cases Option.some.inj h
    · rw [if_neg hw] at h
      rw [← Except.ok.inj (Option.some.inj h)]
      dsimp only
      rw [if_neg (fun hand => hne hand.1)]

/-- C2 (confirmed): while `Read::new`/`Write::new` walk the matched
entities, any slot on which the borrow tracker reports a conflicting
outstanding borrow — an outstanding writer for a read acquisition, or any
outstanding borrow for a write acquisition — makes the whole query
construction abort with the panic error at that access; it never
proceeds past a conflict. -/
theorem borrow_conflict_panics (w : QWorld) (b : BorrowIntent) (cid : DynamicId)
    (e : Entity) (comps : List (DynamicId × CompData)) (d : CompData) (s : SlotState)
    (hmem : (e, comps) ∈ w.entities_components)
    (hcomp : alookup comps cid = some d)
    (hslot : b e cid = some s) :
    (0 < s.writers → ∃ msg, readNew cid w b = Except.error msg) ∧
    ((0 < s.writers ∨ 0 < s.readers) → ∃ msg, writeNew cid w b = Except.error msg) := by
  constructor
  · intro hw
    exact collect_error_of_conflict tryRead (fun s => 0 < s.writers) cid
      (fun b e s hb hp => tryRead_detect b e cid s hb hp)
      (fun b e b2 h e2 hne => tryRead_frame b e cid b2 h e2 hne cid)
      w.entities_components b e comps d s hmem hcomp hslot hw
  · intro hw
    exact collect_error_of_conflict tryWrite (fun s => 0 < s.writers ∨ 0 < s.readers) cid
      (fun b e s hb hp => tryWrite_detect b e cid s hb hp)
      (fun b e b2 h e2 hne => tryWrite_frame b e cid b2 h e2 hne cid)
      w.entities_components b e comps d s hmem hcomp hslot hw

theorem borrow_conflict_panics_witness :
    ((0, [((5 : DynamicId), (⟨5, 7⟩ : CompData))]) ∈ conflictWorld.entities_components ∧
     alookup [((5 : DynamicId), (⟨5, 7⟩ : CompData))] 5 = some ⟨5, 7⟩ ∧
     conflictTracker 0 5 = some ⟨0, 1⟩ ∧ 0 < (1 : Nat)) ∧
    (∃ msg, readNew 5 conflictWorld conflictTracker = Except.error msg) ∧
    (∃ msg, writeNew 5 conflictWorld conflictTracker = Except.error msg) :=
  have h := borrow_conflict_panics conflictWorld conflictTracker 5 0
    [((5 : DynamicId), (⟨5, 7⟩ : CompData))] ⟨5, 7⟩ ⟨0, 1⟩
    (by decide) (by decide) (by decide)
  ⟨⟨by decide, by decide, by decide, by decide⟩,
   h.1 (by decide), h.2 (Or.inl (by decide))⟩

lemma collect_ok_entries
    (tryAcq : BorrowIntent → Entity → DynamicId → Option (Except String BorrowIntent))
    (cid : DynamicId)
    (hsome : ∀ (b : BorrowIntent) (e : Entity), (b e cid).isSome → tryAcq b e cid ≠ none)
    (hpres : ∀ (b : BorrowIntent) (e : Entity) (b2 : BorrowIntent),
      tryAcq b e cid = some (Except.ok b2) →
      ∀ e2 c2, (b e2 c2).isSome → (b2 e2 c2).isSome) :
    ∀ (list : List (Entity × List (DynamicId × CompData))) (b : BorrowIntent)
      (entries : List (Entity × CompData)) (b3 : BorrowIntent),
      (∀ p ∈ list, ∀ q ∈ p.2, (b p.1 q.1).isSome) →
      collectEntries tryAcq cid b list = Except.ok (entries, b3) →
      entries = list.filterMap (fun p => (alookup p.2 cid).map (fun d => (p.1, d))) := by
  intro list
  induction list with
  | nil =>
    intro b entries b3 _ h
    simp only [collectEntries, Except.ok.injEq, Prod.mk.injEq] at h
    simp [← h.1]
  | cons p rest ih =>
    intro b entries b3 hcov h
    obtain ⟨e0, comps0⟩ := p
    cases halook : alookup comps0 cid with
    | none =>
      simp only [collectEntries, halook] at h
      rw [List.filterMap_cons]
      simp only [halook, Option.map_none']
      exact ih b entries b3
        (fun p hp q hq => hcov p (List.mem_cons_of_mem _ hp) q hq) h
    | some d0 =>
      have hcovh : (b e0 cid).isSome :=
        hcov (e0, comps0) (List.mem_cons_self _ _) (cid, d0) (alookup_mem halook)
      cases hacq : tryAcq b e0 cid with
      | none => exact absurd hacq (hsome b e0 hcovh)
      | some res =>
        cases res with
        | error msg =>
          simp only [collectEntries, halook, hacq] at h
          cases h
        | ok b2 =>
          simp only [collectEntries, halook, hacq] at h
          cases hrec : collectEntries tryAcq cid b2 rest with
          | error msg => rw [hrec] at h; cases h
          | ok pr =>
            obtain ⟨entries2, b4⟩ := pr
            rw [hrec] at h
            simp only [Except.ok.injEq, Prod.mk.injEq] at h
            have hcov2 : ∀ p ∈ rest, ∀ q ∈ p.2, (b2 p.1 q.1).isSome :=
              fun p hp q hq =>
                hpres b e0 b2 hacq p.1 q.1 (hcov p (List.mem_cons_of_mem _ hp) q hq)
            rw [← h.1, List.filterMap_cons]
            simp only [halook, Option.map_some']
            rw [ih b2 entries2 b4 hcov2 hrec]

lemma alookup_eq_none_of_not_mem {α β : Type} [DecidableEq α] :
    ∀ {l : List (α × β)} {k : α}, k ∉ l.map Prod.fst → alookup l k = none := by
  intro l
  induction l with
  | nil => intro k _; rfl
  | cons p rest ih =>
    intro k hk
    obtain ⟨k0, v0⟩ := p
    simp only [List.map_cons, List.mem_cons] at hk
    push_neg at hk
    simp only [alookup]
    rw [if_neg hk.1]
    exact ih hk.2

lemma filterMap_keys_sub (cid : DynamicId) :
    ∀ (l : List (Entity × List (DynamicId × CompData))) (e : Entity),
      e ∈ (l.filterMap
        (fun p => (alookup p.2 cid).map (fun d => (p.1, d)))).map Prod.fst →
      e ∈ l.map Prod.fst := by
  intro l
  induction l with
  | nil => intro e h; cases h
  | cons p rest ih =>
    intro e h
    obtain ⟨e0, comps0⟩ := p
    rw [List.filterMap_cons] at h
    cases halook : alookup comps0 cid with
    | none =>
      rw [halook] at h
      simp only [Option.map_none'] at h
      exact List.mem_cons_of_mem _ (ih e h)
    | some d0 =>
      rw [halook] at h
      simp only [Option.map_some', List.map_cons, List.mem_cons] at h
      rcases h with h | h
      · exact List.mem_cons.mpr (Or.inl h)
      · exact List.mem_cons_of_mem _ (ih e h)

lemma alookup_filterMap (cid : DynamicId) :
    ∀ (list : List (Entity × List (DynamicId × CompData))) (e : Entity),
      (list.map Prod.fst).Nodup →
      alookup (list.filterMap (fun p => (alookup p.2 cid).map (fun d => (p.1, d)))) e
        = (alookup list e).bind (fun comps => alookup comps cid) := by
  intro list
  induction list with
  | nil => intro e _; rfl
  | cons p rest ih =>
    intro e hnd
    obtain ⟨e0, comps0⟩ := p
    rw [List.map_cons, List.nodup_cons] at hnd
    obtain ⟨hni, hnd2⟩ := hnd
    rw [List.filterMap_cons]
    by_cases he : e = e0
    · subst he
      have hnone : alookup (rest.filterMap
          (fun p => (alookup p.2 cid).map (fun d => (p.1, d)))) e = none :=
        alookup_eq_none_of_not_mem (fun hmem => hni (filterMap_keys_sub cid rest e hmem))
      cases halook : alookup comps0 cid with
      | none =>
        simp only [halook, Option.map_none']
        rw [hnone]
        simp [alookup, halook]
      | some d0 =>
        simp only [halook, Option.map_some']
        simp [alookup, halook]
    · cases halook : alookup comps0 cid with
      | none =>
        simp only [halook, Option.map_none']
        rw [ih e hnd2]
        simp [alookup, if_neg he]
      | some d0 =>
        simp only [halook, Option.map_some']
        rw [alookup, if_neg he, ih e hnd2]
        simp [alookup, if_neg he]

lemma tryRead_some (b : BorrowIntent) (e : Entity) (c : DynamicId)
    (h : (b e c).isSome) : tryRead b e c ≠ none := by
  cases hb : b e c with
  | none => simp [hb] at h
  | some s =>
    simp only [tryRead, hb]
    split <;> simp

lemma tryRead_pres (b : BorrowIntent) (e : Entity) (c : DynamicId) (b2 : BorrowIntent)
    (h : tryRead b e c = some (Except.ok b2)) (e2 : Entity) (c2 : DynamicId)
    (h2 : (b e2 c2).isSome) : (b2 e2 c2).isSome := by
  cases hb : b e c with
  | none => simp [tryRead, hb] at h
  | some s =>
    simp only [tryRead, hb] at h
    by_cases hw : 0 < s.writers
    · rw [if_pos hw] at h
      cases Option.some.inj h
    · rw [if_neg hw] at h
      rw [← Except.ok.inj (Option.some.inj h)]
      dsimp only
      by_cases hec : e2 = e ∧ c2 = c
      · rw [if_pos hec]; rfl
      · rw [if_neg hec]; exact h2

lemma tryWrite_some (b : BorrowIntent) (e : Entity) (c : DynamicId)
    (h : (b e c).isSome) : tryWrite b e c ≠ none := by
  cases hb : b e c with
  | none => simp [hb] at h
  | some s =>
    simp only [tryWrite, hb]
    split <;> simp

lemma tryWrite_pres (b : BorrowIntent) (e : Entity) (c : DynamicId) (b2 : BorrowIntent)
    (h : tryWrite b e c = some (Except.ok b2)) (e2 : Entity) (c2 : DynamicId)
    (h2 : (b e2 c2).isSome) : (b2 e2 c2).isSome := by
  cases hb : b e c with
  | none => simp [tryWrite, hb] at h
  | some s =>
    simp only [tryWrite, hb] at h
    by_cases hw : 0 < s.writers ∨ 0 < s.readers
    · rw [if_pos hw] at h
      cases Option.some.inj h
    · rw [if_neg hw] at h
      rw [← Except.ok.inj (Option.some.inj h)]
      dsimp only
      by_cases hec : e2 = e ∧ c2 = c
      · rw [if_pos hec]; rfl
      · rw [if_neg hec]; exact h2

lemma queryGet_spec (w : QWorld) (cid : DynamicId) (entries : List (Entity × CompData))
    (htag : ∀ p ∈ w.entities_components, ∀ q ∈ p.2, (q.2).tid = q.1)
    (hnd : (w.entities_components.map Prod.fst).Nodup)
    (hE : entries = w.entities_components.filterMap
      (fun p => (alookup p.2 cid).map (fun d => (p.1, d)))) :
    (∀ e, entityHas w e cid = none → queryGet cid entries e = none) ∧
    (∀ e d, entityHas w e cid = some d → queryGet cid entries e = some d.payload) := by
  subst hE
  have hl : ∀ e, alookup (w.entities_components.filterMap
      (fun p => (alookup p.2 cid).map (fun d => (p.1, d)))) e = entityHas w e cid := by
    intro e
    rw [alookup_filterMap cid w.entities_components e hnd]
    cases hw : alookup w.entities_components e <;> simp [entityHas, hw]
  constructor
  · intro e he
    rw [queryGet, hl e, he]
  · intro e d hd
    rw [queryGet, hl e, hd]
    have hcomps : ∃ comps, alookup w.entities_components e = some comps ∧
        alookup comps cid = some d := by
      unfold entityHas at hd
      cases hw : alookup w.entities_components e with
      | none => rw [hw] at hd; cases hd
      | some comps => rw [hw] at hd; exact ⟨comps, rfl, hd⟩
    obtain ⟨comps, hw2, hc2⟩ := hcomps
    have htid : d.tid = cid :=
      htag (e, comps) (alookup_mem hw2) (cid, d) (alookup_mem hc2)
    dsimp only
    rw [if_pos htid]

/-- C7 (confirmed): on a successfully constructed query, `get(entity)`
returns `none` exactly when the entity does not hold the requested
component in the world (in particular when the entity no longer exists),
and returns the stored component's payload when the entity holds the full
requested set — for both the read and the write query; absence is a
returned signal, never a panic or a fabricated value. -/
theorem query_get_absence (w : QWorld) (b : BorrowIntent) (cid : DynamicId)
    (entries entriesW : List (Entity × CompData))
    (htag : ∀ p ∈ w.entities_components, ∀ q ∈ p.2, (q.2).tid = q.1)
    (hnd : (w.entities_components.map Prod.fst).Nodup)
    (hcov : ∀ p ∈ w.entities_components, ∀ q ∈ p.2, (b p.1 q.1).isSome)
    (hok : readNewEntries cid w b = some entries)
    (hokW : writeNewEntries cid w b = some entriesW) :
    (∀ e, entityHas w e cid = none →
      queryGet cid entries e = none ∧ queryGet cid entriesW e = none) ∧
    (∀ e d, entityHas w e cid = some d →
      queryGet cid entries e = some d.payload ∧ queryGet cid entriesW e = some d.payload) := by
  have hR : entries = w.entities_components.filterMap
      (fun p => (alookup p.2 cid).map (fun d => (p.1, d))) := by
    cases hr : readNew cid w b with
    | error msg => rw [readNewEntries, hr] at hok; cases hok
    | ok pr =>
      rw [readNewEntries, hr] at hok
      rw [← Option.some.inj hok]
      exact collect_ok_entries tryRead cid
        (fun b e h => tryRead_some b e cid h)
        (fun b e b2 h e2 c2 h2 => tryRead_pres b e cid b2 h e2 c2 h2)
        w.entities_components b pr.1 pr.2 hcov hr
  have hW : entriesW = w.entities_components.filterMap
      (fun p => (alookup p.2 cid).map (fun d => (p.1, d))) := by
    cases hr : writeNew cid w b with
    | error msg => rw [writeNewEntries, hr] at hokW; cases hokW
    | ok pr =>
      rw [writeNewEntries, hr] at hokW
      rw [← Option.some.inj hokW]
      exact collect_ok_entries tryWrite cid
        (fun b e h => tryWrite_some b e cid h)
        (fun b e b2 h e2 c2 h2 => tryWrite_pres b e cid b2 h e2 c2 h2)
        w.entities_components b pr.1 pr.2 hcov hr
  obtain ⟨ha, hp⟩ := queryGet_spec w cid entries htag hnd hR
  obtain ⟨haW, hpW⟩ := queryGet_spec w cid entriesW htag hnd hW
  exact ⟨fun e he => ⟨ha e he, haW e he⟩, fun e d hd => ⟨hp e d hd, hpW e d hd⟩⟩

theorem query_get_absence_witness :
    (readNewEntries idB testWorld freeTracker
      = some [(0, ⟨idB, 0⟩), (1, ⟨idB, 0⟩), (3, ⟨idB, 0⟩)] ∧
     entityHas testWorld 2 idB = none ∧
     entityHas testWorld 1 idB = some ⟨idB, 0⟩) ∧
    (queryGet idB [(0, ⟨idB, 0⟩), (1, ⟨idB, 0⟩), (3, ⟨idB, 0⟩)] 2 = none ∧
     queryGet idB [(0, ⟨idB, 0⟩), (1, ⟨idB, 0⟩), (3, ⟨idB, 0⟩)] 2 = none) ∧
    (queryGet idB [(0, ⟨idB, 0⟩), (1, ⟨idB, 0⟩), (3, ⟨idB, 0⟩)] 1
      = some (CompData.payload ⟨idB, 0⟩) ∧
     queryGet idB [(0, ⟨idB, 0⟩), (1, ⟨idB, 0⟩), (3, ⟨idB, 0⟩)] 1
      = some (CompData.payload ⟨idB, 0⟩)) :=
  have h := query_get_absence testWorld freeTracker idB
    [(0, ⟨idB, 0⟩), (1, ⟨idB, 0⟩), (3, ⟨idB, 0⟩)]
    [(0, ⟨idB, 0⟩), (1, ⟨idB, 0⟩), (3, ⟨idB, 0⟩)]
    (by decide) (by decide) (by decide) (by decide) (by decide)
  ⟨⟨by decide, by decide, by decide⟩,
   h.1 2 (by decide), h.2 1 ⟨idB, 0⟩ (by decide)⟩

lemma mem_queryEntities (req : List DynamicId) (w : QWorld) (e : Entity) :
    e ∈ queryEntities req w ↔
      ∃ comps, (e, comps) ∈ w.entities_components ∧
        ∀ c ∈ req, hasComponent comps c = true := by
  simp only [queryEntities, List.mem_map, List.mem_filter]
  constructor
  · rintro ⟨p, ⟨hmem, hall⟩, rfl⟩
    refine ⟨p.2, hmem, ?_⟩
    rw [List.all_eq_true] at hall
    exact hall
  · rintro ⟨comps, hmem, hall⟩
    exact ⟨(e, comps), ⟨hmem, by rw [List.all_eq_true]; exact hall⟩, rfl⟩

/-- C1 (amended): a static query matches exactly the entities whose
component set is a superset of the queried set; over the four entities
{A,B,C}, {A,B}, {A,C}, {A,B,C} the source's own acceptance test query,
`(&A,&B,&C)`, yields exactly 2 matches (the two {A,B,C} entities), while
the pair query `(&A,&B)` named by the spec sentence yields exactly
3 matches. -/
theorem query_superset_semantics :
    (∀ (req : List DynamicId) (w : QWorld) (e : Entity),
      e ∈ queryEntities req w ↔
        ∃ comps, (e, comps) ∈ w.entities_components ∧
          ∀ c ∈ req, hasComponent comps c = true) ∧
    (queryEntities [idA, idB, idC] testWorld).length = 2 ∧
    (queryEntities [idA, idB] testWorld).length = 3 :=
  ⟨mem_queryEntities, by decide, by decide⟩

theorem query_superset_semantics_witness :
    1 ∈ queryEntities [idA, idB] testWorld ∧
    (queryEntities [idA, idB, idC] testWorld).length = 2 :=
  ⟨(query_superset_semantics.1 [idA, idB] testWorld 1).mpr
    ⟨[(idA, ⟨idA, 0⟩), (idB, ⟨idB, 0⟩)], by decide, by decide⟩,
   query_superset_semantics.2.1⟩

/-- C1 (counterexample): over the four entities {A,B,C}, {A,B}, {A,C},
{A,B,C}, iterating the query for {A,B} yields 3 matches — the two
{A,B,C} entities and the {A,B} entity — not the 2 the claim states. -/
theorem query_pair_count_not_two :
    queryEntities [idA, idB] testWorld = [0, 1, 3] ∧
    (queryEntities [idA, idB] testWorld).length ≠ 2 := by decide

/-- C6 (confirmed): over the four entities {A,B,C}, {A,B}, {A,C},
{A,B,C}, the filtered query for `&B` with `With<A>` matches exactly the
3 entities holding both A and B, and with `Without<C>` exactly the
1 entity holding B but not C. -/
theorem query_filtered_counts :
    queryFilteredEntities [idB] [idA] [] testWorld = [0, 1, 3] ∧
    (queryFilteredEntities [idB] [idA] [] testWorld).length = 3 ∧
    queryFilteredEntities [idB] [] [idC] testWorld = [1] ∧
    (queryFilteredEntities [idB] [] [idC] testWorld).length = 1 := by decide

lemma gens_mono_runOps : ∀ (ops : List WorldOp) (w : GenWorld) (i : Nat),
    w.generations i ≤ (w.runOps ops).generations i := by
  intro ops
  induction ops with
  | nil => intro w i; exact Nat.le_refl _
  | cons op ops ih =>
    intro w i
    cases op with
    | wopSpawn =>
      simp only [GenWorld.runOps]
      refine Nat.le_trans ?_ (ih (w.spawn).2 i)
      cases hf : w.freeList <;> simp [GenWorld.spawn, hf]
    | wopDespawn e =>
      simp only [GenWorld.runOps]
      refine Nat.le_trans ?_ (ih (w.despawn e) i)
      by_cases ha : w.isAlive e = true
      · simp only [GenWorld.despawn, if_pos ha]
        split <;> omega
      · simp only [GenWorld.despawn, if_neg ha]
        exact Nat.le_refl _

/-- C5 (confirmed, modelled from the spec): despawning a live entity and
spawning again reuses the freed index but hands out a handle whose
generation is the old one plus one — never the old generation — and after
the despawn no sequence of further spawns/despawns ever makes the old
handle pass validation again: every access through it is rejected with a
distinct failure (`none`), not answered with stale data. -/
theorem entity_generation_invariant (w : GenWorld) (e : GenEntity)
    (h : w.isAlive e = true) :
    ((w.despawn e).spawn).1.index = e.index ∧
    ((w.despawn e).spawn).1.generation = e.generation + 1 ∧
    ((w.despawn e).spawn).1.generation ≠ e.generation ∧
    (∀ ops, ((w.despawn e).runOps ops).isAlive e = false) ∧
    (∀ ops, ((w.despawn e).runOps ops).access e = none) := by
  have hgen : w.generations e.index = e.generation := by
    simp only [GenWorld.isAlive, Bool.and_eq_true, beq_iff_eq] at h
    exact h.2
  have hd : (w.despawn e).freeList = e.index :: w.freeList := by
    simp only [GenWorld.despawn, if_pos h]
  have hdg : (w.despawn e).generations e.index = e.generation + 1 := by
    simp only [GenWorld.despawn, if_pos h]
    simp [hgen]
  have hs : ((w.despawn e).spawn).1
      = ⟨e.index, (w.despawn e).generations e.index⟩ := by
    simp only [GenWorld.spawn, hd]
  have halive : ∀ ops, ((w.despawn e).runOps ops).isAlive e = false := by
    intro ops
    have hmono := gens_mono_runOps ops (w.despawn e) e.index
    rw [hdg] at hmono
    have hne : ((w.despawn e).runOps ops).generations e.index ≠ e.generation := by
      intro hh
      rw [hh] at hmono
      exact Nat.not_succ_le_self e.generation hmono
    simp [GenWorld.isAlive, hne]
  refine ⟨by rw [hs], by rw [hs, hdg], by rw [hs, hdg]; exact Nat.succ_ne_self _,
    halive, fun ops => ?_⟩
  simp [GenWorld.access, halive ops]

theorem entity_generation_invariant_witness :
    ((GenWorld.empty.spawn).2.isAlive ⟨0, 0⟩ = true) ∧
    ((((GenWorld.empty.spawn).2.despawn ⟨0, 0⟩).spawn).1.index = 0 ∧
     (((GenWorld.empty.spawn).2.despawn ⟨0, 0⟩).spawn).1.generation = 0 + 1 ∧
     (((GenWorld.empty.spawn).2.despawn ⟨0, 0⟩).spawn).1.generation ≠ 0 ∧
     (∀ ops, (((GenWorld.empty.spawn).2.despawn ⟨0, 0⟩).runOps ops).isAlive ⟨0, 0⟩ = false) ∧
     (∀ ops, (((GenWorld.empty.spawn).2.despawn ⟨0, 0⟩).runOps ops).access ⟨0, 0⟩ = none)) :=
  ⟨by decide, entity_generation_invariant (GenWorld.empty.spawn).2 ⟨0, 0⟩ (by decide)⟩

lemma remove_lookup_self :
    ∀ (data : List (Entity × List CompData)) (tid : Nat) (e : Entity)
      (comps : List CompData),
      alookup data e = some comps →
      alookup ((Components.mk data).remove tid e).data e
        = some (comps.filter (fun c => !(c.tid == tid))) := by
  intro data
  induction data with
  | nil => intro tid e comps h; cases h
  | cons p rest ih =>
    intro tid e comps h
    obtain ⟨e0, v0⟩ := p
    simp only [alookup] at h
    simp only [Components.remove, List.map_cons]
    by_cases he : e = e0
    · rw [if_pos he] at h
      rw [← Option.some.inj h]
      rw [if_pos he.symm]
      simp [alookup, he]
    · rw [if_neg he] at h
      have hrec := ih tid e comps h
      simp only [Components.remove] at hrec
      by_cases h0 : e0 = e
      · exact absurd h0.symm he
      · rw [if_neg h0]
        rw [alookup, if_neg he]
        exact hrec

lemma remove_lookup_other :
    ∀ (data : List (Entity × List CompData)) (tid : Nat) (e e2 : Entity),
      e2 ≠ e →
      alookup ((Components.mk data).remove tid e).data e2 = alookup data e2 := by
  intro data
  induction data with
  | nil => intro tid e e2 _; rfl
  | cons p rest ih =>
    intro tid e e2 hne
    obtain ⟨e0, v0⟩ := p
    simp only [Components.remove, List.map_cons]
    have hrec := ih tid e e2 hne
    simp only [Components.remove] at hrec
    by_cases h0 : e0 = e
    · rw [if_pos h0]
      rw [alookup, alookup]
      by_cases h2 : e2 = e0
      · exact absurd (h2.trans h0) hne
      · rw [if_neg h2, if_neg h2]
        exact hrec
    · rw [if_neg h0]
      rw [alookup, alookup]
      by_cases h2 : e2 = e0
      · rw [if_pos h2, if_pos h2]
      · rw [if_neg h2, if_neg h2]
        exact hrec

/-- C8 (confirmed): `World::remove_component::<T>(e)` leaves the entity
with exactly its previous components minus every component of type `T`
(their values untouched), and leaves the component list of every other
entity unchanged. -/
theorem remove_component_exact (w : WorldS) (e : Entity) (tid : Nat)
    (comps : List CompData)
    (hc : alookup w.components.data e = some comps)
    (_hholds : ∃ c ∈ comps, c.tid = tid) :
    alookup ((w.remove_component tid e).components.data) e
      = some (comps.filter (fun c => !(c.tid == tid))) ∧
    (∀ e2, e2 ≠ e →
      alookup ((w.remove_component tid e).components.data) e2
        = alookup w.components.data e2) := by
  constructor
  · exact remove_lookup_self w.components.data tid e comps hc
  · intro e2 hne
    exact remove_lookup_other w.components.data tid e e2 hne

theorem remove_component_exact_witness :
    (alookup [((0 : Entity), [(⟨1, 10⟩ : CompData), ⟨2, 20⟩, ⟨1, 11⟩]), (1, [⟨1, 30⟩])] 0
      = some [⟨1, 10⟩, ⟨2, 20⟩, ⟨1, 11⟩] ∧
     (⟨1, 10⟩ : CompData) ∈ [(⟨1, 10⟩ : CompData), ⟨2, 20⟩, ⟨1, 11⟩] ∧
     (⟨1, 10⟩ : CompData).tid = 1) ∧
    (alookup ((WorldS.mk ⟨[(0, [⟨1, 10⟩, ⟨2, 20⟩, ⟨1, 11⟩]), (1, [⟨1, 30⟩])]⟩).remove_component
        1 0).components.data 0
      = some ([(⟨1, 10⟩ : CompData), ⟨2, 20⟩, ⟨1, 11⟩].filter (fun c => !(c.tid == 1))) ∧
     (∀ e2, e2 ≠ 0 →
      alookup ((WorldS.mk ⟨[(0, [⟨1, 10⟩, ⟨2, 20⟩, ⟨1, 11⟩]), (1, [⟨1, 30⟩])]⟩).remove_component
          1 0).components.data e2
        = alookup [((0 : Entity), [(⟨1, 10⟩ : CompData), ⟨2, 20⟩, ⟨1, 11⟩]), (1, [⟨1, 30⟩])] e2)) :=
  ⟨⟨by decide, by decide, by decide⟩,
   remove_component_exact (WorldS.mk ⟨[(0, [⟨1, 10⟩, ⟨2, 20⟩, ⟨1, 11⟩]), (1, [⟨1, 30⟩])]⟩)
    0 1 [⟨1, 10⟩, ⟨2, 20⟩, ⟨1, 11⟩] (by decide) ⟨⟨1, 10⟩, by decide, by decide⟩⟩

end Weaver
